import Mathlib

/-!
Shallow embedding of `src/meta/zp_meta_server.cc` (zeppelin meta server).

The file models the meta-server operations as pure state-passing functions.
External collaborators (the floyd replicated log, the InfoStore, the
MigrateRegister, the UpdateThread queue and the ConditionCron) are modelled
as follows:

* results of external I/O (floyd leader lookup, connect, send/recv,
  `RestoreNodeAlive`) are passed in as explicit parameters (oracles);
* the `UpdateThread.PendingUpdate` and `ConditionCron.AddCronTask` calls
  are recorded, in program order, in an event trace carried by the state;
* the MigrateRegister and parts of the InfoStore whose implementation is
  not among the sources are modelled from the spec (their doc comments say
  so explicitly).

Machine integers that matter (the `%u` formatting in `NodeOffsetKey`) are
modelled with explicit `% 2^32`.
-/

/-- Status codes of `slash::Status` as used by the meta server, together
with the attached message. -/
inductive Status where
  | ok
  | notFound (msg : String)
  | corruption (msg : String)
  | invalidArgument (msg : String)
  | alreadyExists (msg : String)
  | incomplete (msg : String)
  | conflict (msg : String)
  | ioError (msg : String)
  deriving DecidableEq, Repr

def Status.isOk : Status → Bool
  | .ok => true
  | _ => false

def Status.IsNotFound : Status → Bool
  | .notFound _ => true
  | _ => false

def Status.IsIncomplete : Status → Bool
  | .incomplete _ => true
  | _ => false

def Status.IsInvalidArgument : Status → Bool
  | .invalidArgument _ => true
  | _ => false

/-- A `ZPMeta::Node`: ip and port of a storage (or meta) server. -/
structure Node where
  ip : String
  port : Int
  deriving DecidableEq, Repr

/-- `slash::IpPortString`: the canonical "ip:port" string of a node. -/
def ipPortString (ip : String) (port : Int) : String :=
  ip ++ ":" ++ toString port

/-- A `ZPMeta::RelationCmdUnit`: one migration item, moving `partition` of
`table` from node `left` to node `right`. -/
structure RelationCmdUnit where
  table : String
  partition : Int
  left : Node
  right : Node
  deriving DecidableEq, Repr

/-- The `ZPMetaUpdateOP` enum of update-task operations. -/
inductive ZPMetaUpdateOP where
  | kOpUpNode
  | kOpDownNode
  | kOpAddSlave
  | kOpRemoveSlave
  | kOpSetMaster
  | kOpSetStuck
  | kOpSetActive
  deriving DecidableEq, Repr

/-- An `UpdateTask` as constructed in `zp_meta_server.cc`: operation,
"ip:port" argument, table and partition. -/
structure UpdateTask where
  op : ZPMetaUpdateOP
  ipPort : String
  table : String
  partition : Int
  deriving DecidableEq, Repr

/-- An `OffsetCondition(table, partition, left, right)`: the deferred task
fires once candidate `right` has caught up with reference `left`. -/
structure OffsetCondition where
  table : String
  partition : Int
  left : Node
  right : Node
  deriving DecidableEq, Repr

/-- Observable side effects of the meta-server operations: enqueueing an
`UpdateTask` on the update thread, registering a `ConditionCron` entry, and
calling `InfoStore.RestoreNodeAlive`. -/
inductive Event where
  | pendingUpdate (t : UpdateTask)
  | addCronTask (c : OffsetCondition) (t : UpdateTask)
  | restoreNodeAlive
  deriving DecidableEq, Repr

/-- The `LeaderJoint` struct: remembered leader address and the redirect
client connection handle (`cli`), `some ()` when a connection object is
held, `none` when `cli == NULL`. -/
structure LeaderJoint where
  ip : String
  port : Int
  cli : Option Unit
  deriving DecidableEq, Repr

/-- Modelled from the spec and the missing `zp_meta_server.h`:
`LeaderJoint::CleanLeader` closes and frees the redirect connection and
forgets the remembered leader address. -/
def cleanLeader (_j : LeaderJoint) : LeaderJoint :=
  { ip := "", port := 0, cli := none }

/-- The state of a `ZPMetaServer` relevant to the modelled operations:
the InfoStore epoch, the MigrateRegister pending queue, the leader joint,
and the trace of emitted events. -/
structure ZPMetaServerState where
  epoch : Int
  register : List RelationCmdUnit
  joint : LeaderJoint
  events : List Event
  deriving DecidableEq, Repr

/-- Modelled from the spec: `ZPMetaMigrateRegister::Init(diffs)` fails with
`AlreadyExists` if a migration is in progress (the register is non-empty);
otherwise it persists `diffs` as the new pending queue. The register
implementation is not among the sources. -/
def migrateRegisterInit (diffs : List RelationCmdUnit)
    (reg : List RelationCmdUnit) : Status × List RelationCmdUnit :=
  if reg.isEmpty then (Status.ok, diffs)
  else (Status.alreadyExists "Migrate in progress", reg)

/-- Modelled from the spec: `ZPMetaMigrateRegister::GetN(n)` returns up to
`n` next items without removing them, or `NotFound` if none remain. The
register implementation is not among the sources. -/
def migrateRegisterGetN (n : Nat) (reg : List RelationCmdUnit) :
    Status × List RelationCmdUnit :=
  if reg.isEmpty then (Status.notFound "no migrate item", [])
  else (Status.ok, reg.take n)

/-- The three side effects `ZPMetaServer::ProcessMigrate` performs for one
migration item, in program order: enqueue `AddSlave(right)`, enqueue
`SetStuck`, register the ConditionCron entry whose deferred task is
`RemoveSlave(left)`. -/
def migrationEvents (d : RelationCmdUnit) : List Event :=
  [Event.pendingUpdate
     ⟨ZPMetaUpdateOP.kOpAddSlave, ipPortString d.right.ip d.right.port,
       d.table, d.partition⟩,
   Event.pendingUpdate
     ⟨ZPMetaUpdateOP.kOpSetStuck, "", d.table, d.partition⟩,
   Event.addCronTask ⟨d.table, d.partition, d.left, d.right⟩
     ⟨ZPMetaUpdateOP.kOpRemoveSlave, ipPortString d.left.ip d.left.port,
       d.table, d.partition⟩]

/-- One iteration of the loop body of `ZPMetaServer::ProcessMigrate`. -/
def processOneMigrate (s : ZPMetaServerState) (d : RelationCmdUnit) :
    ZPMetaServerState :=
  { s with events := s.events ++ migrationEvents d }

/-- Concatenation of the per-item effects, used to state what a whole
`ProcessMigrate` drain emits. -/
def eventsOf : List RelationCmdUnit → List Event
  | [] => []
  | d :: rest => migrationEvents d ++ eventsOf rest

/-- `ZPMetaServer::ProcessMigrate`: fetch up to `count` items from the
register (`count` stands for `kMetaMigrateOnceCount`, whose value lives in
the missing constants header); `NotFound` from `GetN` is only logged, any
other failure is returned; each item contributes its three side effects;
the call returns `Incomplete` when the loop body never ran (`has_process`
stayed false) and `OK` otherwise. -/
def processMigrate (count : Nat) (s : ZPMetaServerState) :
    Status × ZPMetaServerState :=
  let gn := migrateRegisterGetN count s.register
  if !gn.1.IsNotFound && !gn.1.isOk then (gn.1, s)
  else
    let r := gn.2.foldl (fun acc d => (processOneMigrate acc.1 d, true))
      (s, false)
    if !r.2 then (Status.incomplete "no migrate item begin", r.1)
    else (Status.ok, r.1)

/-- The `do { s = ProcessMigrate(); } while (s.IsIncomplete() && retry-- > 0)`
loop of `ZPMetaServer::Migrate`: the body runs once, then up to `retry`
more times while the result is `Incomplete`. -/
def migrateRetryLoop (count : Nat) :
    Nat → ZPMetaServerState → Status × ZPMetaServerState
  | 0, s => processMigrate count s
  | Nat.succ r, s =>
    let p := processMigrate count s
    if p.1.IsIncomplete then migrateRetryLoop count r p.2 else p

/-- `ZPMetaServer::Migrate(epoch, diffs)`: reject a stale epoch with
`InvalidArgument`; initialize the register (the source `assert(!diffs.empty())`
is a no-op with assertions disabled and is not modelled as a return);
then retry `ProcessMigrate` up to `retryNum` times (`kInitMigrateRetryNum`
in the missing constants header). -/
def migrate (retryNum count : Nat) (epoch : Int)
    (diffs : List RelationCmdUnit) (s : ZPMetaServerState) :
    Status × ZPMetaServerState :=
  if epoch ≠ s.epoch then (Status.invalidArgument "Expired epoch", s)
  else
    let ir := migrateRegisterInit diffs s.register
    if !ir.1.isOk then (ir.1, s)
    else migrateRetryLoop count retryNum { s with register := ir.2 }

/-- Modelled from the spec and the missing InfoStore sources:
`ZPMetaInfoStore::GetPartitionMaster(table, partition)` looks the master up
in the current revision (`pm`) and fails with `NotFound` when absent. -/
def getPartitionMaster (pm : String → Int → Option Node)
    (table : String) (partition : Int) : Status × Node :=
  match pm table partition with
  | none => (Status.notFound "partition not exist", ⟨"", 0⟩)
  | some m => (Status.ok, m)

/-- `ZPMetaServer::WaitSetMaster(node, table, partition)`: on lookup
failure return it unchanged; otherwise enqueue `SetStuck`, then register
the ConditionCron entry `(table, partition, master, node)` whose deferred
task is `SetMaster(node)`, and return `OK`. -/
def waitSetMaster (pm : String → Int → Option Node) (node : Node)
    (table : String) (partition : Int) (s : ZPMetaServerState) :
    Status × ZPMetaServerState :=
  let gm := getPartitionMaster pm table partition
  if !gm.1.isOk then (gm.1, s)
  else
    let s1 := { s with events := s.events ++
      [Event.pendingUpdate ⟨ZPMetaUpdateOP.kOpSetStuck, "", table, partition⟩] }
    let s2 := { s1 with events := s1.events ++
      [Event.addCronTask ⟨table, partition, gm.2, node⟩
        ⟨ZPMetaUpdateOP.kOpSetMaster, ipPortString node.ip node.port,
          table, partition⟩] }
    (Status.ok, s2)

/-- `ZPMetaServer::RedirectToLeader`: with no client handle return
`Corruption("no leader connection")`; otherwise attempt the send (whose
outcome is the oracle `sendRes`) and then the recv (`recvRes`). The second
component records whether a send was attempted. -/
def redirectToLeader (j : LeaderJoint) (sendRes recvRes : Status) :
    Status × Bool :=
  match j.cli with
  | none => (Status.corruption "no leader connection", false)
  | some _ =>
    if !sendRes.isOk then (sendRes, true)
    else (recvRes, true)

/-- `ZPMetaServer::IsLeader`: the joint remembers this node's own address
(command port) as the leader. -/
def isLeader (localIp : String) (localPort shiftCmd : Int)
    (j : LeaderJoint) : Bool :=
  j.ip == localIp && j.port == localPort + shiftCmd

/-- `ZPMetaServer::RefreshLeader`. `floydLeader` is the raw answer of
`floyd_->GetLeader` (the log-internal port); `restoreRes` and `connectRes`
are the outcomes of `InfoStore.RestoreNodeAlive` and of connecting to a new
leader. `shiftFY`/`shiftCmd` stand for `kMetaPortShiftFY`/`kMetaPortShiftCmd`
from the missing constants header. -/
def refreshLeader (localIp : String) (localPort shiftFY shiftCmd : Int)
    (floydLeader : Option (String × Int)) (restoreRes connectRes : Status)
    (s : ZPMetaServerState) : Status × ZPMetaServerState :=
  match floydLeader with
  | none => (Status.incomplete "No leader yet", s)
  | some (lip, fyport) =>
    let lport := fyport - shiftFY
    let lcmdport := lport + shiftCmd
    if lip == s.joint.ip && lcmdport == s.joint.port then (Status.ok, s)
    else
      let s1 := { s with joint := cleanLeader s.joint }
      if lip == localIp && lport == localPort then
        let s2 := { s1 with events := s1.events ++ [Event.restoreNodeAlive] }
        if !restoreRes.isOk then (restoreRes, s2)
        else (Status.ok, s2)
      else
        let j2 : LeaderJoint := { ip := lip, port := lcmdport, cli := some () }
        if !connectRes.isOk then
          (connectRes, { s1 with joint := cleanLeader j2 })
        else (connectRes, { s1 with joint := j2 })

/-- The `MetaNodes` part of a `ListMeta` response: the leader (when known)
and the follower list. -/
structure MetaNodesResp where
  leader : Option Node
  followers : List Node
  deriving DecidableEq, Repr

/-- `ZPMetaServer::GetLeader`: ask floyd for the leader and shift its
log-internal port down to base-port space. -/
def getLeader (shiftFY : Int) (floydLeader : Option (String × Int)) :
    Option (String × Int) :=
  floydLeader.map (fun p => (p.1, p.2 - shiftFY))

/-- The skip test in the follower loop of `ZPMetaServer::GetAllMetaNodes`:
a parsed meta address is the leader when its ip matches and its
shifted-down port matches the leader's base port. -/
def isLeaderEntry (shiftFY : Int) (ldr : Option (String × Int))
    (ip : String) (port : Int) : Bool :=
  match ldr with
  | some (lip, lport) => ip == lip && port - shiftFY == lport
  | none => false

/-- The follower loop of `ZPMetaServer::GetAllMetaNodes`: each meta address
comes as its `ParseIpPortString` result (`none` is a parse failure, which
aborts with `Corruption`); leader-matching entries are skipped; the rest
are reported with the port shifted down by `shiftFY`. -/
def collectFollowers (shiftFY : Int) (ldr : Option (String × Int)) :
    List (Option (String × Int)) → Status × List Node
  | [] => (Status.ok, [])
  | none :: _ => (Status.corruption "parse ip port error", [])
  | some (ip, port) :: rest =>
    if isLeaderEntry shiftFY ldr ip port then
      collectFollowers shiftFY ldr rest
    else
      let r := collectFollowers shiftFY ldr rest
      (r.1, ⟨ip, port - shiftFY⟩ :: r.2)

/-- `ZPMetaServer::GetAllMetaNodes`: report the leader (in base-port space,
when floyd knows one) and the followers collected from floyd's member
list. -/
def getAllMetaNodes (shiftFY : Int) (floydLeader : Option (String × Int))
    (metaNodes : List (Option (String × Int))) : Status × MetaNodesResp :=
  let ldr := getLeader shiftFY floydLeader
  let cf := collectFollowers shiftFY ldr metaNodes
  (cf.1, { leader := ldr.map (fun p => ⟨p.1, p.2⟩), followers := cf.2 })

/-- A `MetaCmdResponse_Pull` as filled by `GetMetaInfoByNode`: the epoch
version and the serialized table metas added to `info`. -/
structure PullResp where
  version : Int
  info : List String
  deriving DecidableEq, Repr

/-- Modelled from the spec and the missing InfoStore sources:
`ZPMetaInfoStore::GetTablesForNode` returns every table in which the node
appears in any replica set, failing with `NotFound` when there is none. -/
def getTablesForNode (tfn : String → List String) (node : String) :
    Status × List String :=
  let ts := tfn node
  if ts.isEmpty then (Status.notFound "node not exist", ts)
  else (Status.ok, ts)

/-- The loop of `ZPMetaServer::GetMetaInfoByNode`: for each table, an
`info` entry is added first and then filled by `GetTableMeta` (`tm`, the
table metas of the current revision); a lookup failure returns immediately,
leaving the just-added entry empty. -/
def getMetaInfoLoop (tm : String → Option String) :
    List String → Status × List String
  | [] => (Status.ok, [])
  | t :: rest =>
    match tm t with
    | none => (Status.notFound "table not exist", [""])
    | some meta =>
      let r := getMetaInfoLoop tm rest
      (r.1, meta :: r.2)

/-- `ZPMetaServer::GetMetaInfoByNode`: set the version to the current
epoch; a `GetTablesForNode` failure other than `NotFound` is propagated,
`NotFound` is absorbed; then every table the node serves is fetched. -/
def getMetaInfoByNode (epoch : Int) (tfn : String → List String)
    (tm : String → Option String) (node : String) : Status × PullResp :=
  let g := getTablesForNode tfn node
  if !g.1.isOk && !g.1.IsNotFound then (g.1, { version := epoch, info := [] })
  else
    let r := getMetaInfoLoop tm g.2
    (r.1, { version := epoch, info := r.2 })

/-- Decimal rendering of an `int` passed through a `%u` conversion:
the value is reinterpreted as a 32-bit unsigned integer. -/
def u32str (i : Int) : String :=
  toString (Int.toNat (i % (2 : Int) ^ 32))

/-- `NodeOffsetKey(table, partition_id, ip, port)`: the
`"%s_%u_%s:%u"` key written by `snprintf` into a 256-byte buffer, hence
truncated to 255 characters (modelled by a take on the character list). -/
def NodeOffsetKey (table : String) (partitionId : Int)
    (ip : String) (port : Int) : String :=
  String.mk
    ((table ++ "_" ++ u32str partitionId ++ "_" ++ ip ++ ":"
        ++ u32str port).data.take 255)

/-- A replication offset `(filenum, offset)`. -/
structure NodeOffset where
  filenum : Int
  offset : Int
  deriving DecidableEq, Repr

/-- One entry of the `offset()` list of a `MetaCmd_Ping`. -/
structure PingOffset where
  tableName : String
  partition : Int
  filenum : Int
  offset : Int
  deriving DecidableEq, Repr

/-- A `MetaCmd_Ping`: the reporting node and its per-partition offsets. -/
structure Ping where
  node : Node
  offset : List PingOffset
  deriving DecidableEq, Repr

/-- The `node_offsets_.offsets` map, keyed by `NodeOffsetKey` strings. -/
def OffsetMap : Type := String → Option NodeOffset

/-- `ZPMetaServer::UpdateNodeOffset`: each offset carried by the ping
overwrites the map entry at its `NodeOffsetKey`. -/
def updateNodeOffset (ping : Ping) (m : OffsetMap) : OffsetMap :=
  ping.offset.foldl
    (fun acc po => fun k =>
      if k = NodeOffsetKey po.tableName po.partition ping.node.ip ping.node.port
      then some ⟨po.filenum, po.offset⟩ else acc k)
    m

/-- The value the last ping entry whose key is `k` carries, if any: the
vocabulary used to state what `updateNodeOffset` writes. -/
def lastHit (node : Node) (k : String) : List PingOffset → Option NodeOffset
  | [] => none
  | po :: rest =>
    match lastHit node k rest with
    | some v => some v
    | none =>
      if NodeOffsetKey po.tableName po.partition node.ip node.port = k
      then some ⟨po.filenum, po.offset⟩ else none

/-! Helper lemmas shared by the claim theorems below. -/

theorem foldl_processOneMigrate (l : List RelationCmdUnit)
    (s : ZPMetaServerState) (b : Bool) :
    l.foldl (fun acc d => (processOneMigrate acc.1 d, true)) (s, b) =
      ({ s with events := s.events ++ eventsOf l }, b || !l.isEmpty) := by
  induction l generalizing s b with
  | nil => simp [eventsOf]
  | cons d rest ih =>
    rw [List.foldl_cons, ih]
    simp [processOneMigrate, eventsOf]

theorem processMigrate_empty_register (count : Nat) (s : ZPMetaServerState)
    (h : s.register = []) :
    processMigrate count s = (Status.incomplete "no migrate item begin", s) := by
  simp [processMigrate, migrateRegisterGetN, h, Status.IsNotFound, Status.isOk]

theorem migrateRetryLoop_empty_register (count retry : Nat)
    (s : ZPMetaServerState) (h : s.register = []) :
    migrateRetryLoop count retry s =
      (Status.incomplete "no migrate item begin", s) := by
  induction retry with
  | zero => exact processMigrate_empty_register count s h
  | succ r ih =>
    simp [migrateRetryLoop, processMigrate_empty_register count s h,
      Status.IsIncomplete, ih]

/-- C1: a `Migrate(epoch, diffs)` call whose epoch differs from the current
InfoStore epoch returns `InvalidArgument` and leaves the whole server state
(register, event trace, everything) untouched. -/
theorem migrate_stale_epoch_no_side_effects (retryNum count : Nat) (e : Int)
    (diffs : List RelationCmdUnit) (s : ZPMetaServerState) (h : e ≠ s.epoch) :
    migrate retryNum count e diffs s =
      (Status.invalidArgument "Expired epoch", s) := by
  simp [migrate, h]

theorem migrate_stale_epoch_no_side_effects_witness :
    migrate 2 3 4 [⟨"t", 0, ⟨"a", 1⟩, ⟨"b", 2⟩⟩] ⟨5, [], ⟨"", 0, none⟩, []⟩ =
      (Status.invalidArgument "Expired epoch", ⟨5, [], ⟨"", 0, none⟩, []⟩) :=
  migrate_stale_epoch_no_side_effects 2 3 4 [⟨"t", 0, ⟨"a", 1⟩, ⟨"b", 2⟩⟩]
    ⟨5, [], ⟨"", 0, none⟩, []⟩ (by decide)

/-- C2: `ProcessMigrate` stages at most `count` items (the first
`register.take count`), appends for each staged item, in order, the
`AddSlave(right)` enqueue, the `SetStuck` enqueue and the ConditionCron
registration whose deferred task is `RemoveSlave(left)`, and returns
`Incomplete` exactly when zero items were staged and `OK` otherwise. -/
theorem processMigrate_spec (count : Nat) (s : ZPMetaServerState) :
    processMigrate count s =
      ((if (s.register.take count).isEmpty
        then Status.incomplete "no migrate item begin" else Status.ok),
       { s with events := s.events ++ eventsOf (s.register.take count) })
      ∧ (s.register.take count).length ≤ count := by
  refine ⟨?_, by simp [List.length_take_le]⟩
  by_cases h : s.register.isEmpty
  · have h0 : s.register = [] := by simpa using h
    simp [processMigrate, migrateRegisterGetN, h0, Status.IsNotFound,
      Status.isOk, eventsOf]
    rw [← h0]
  · by_cases ht : (s.register.take count).isEmpty
    · simp [processMigrate, migrateRegisterGetN, h, ht, Status.IsNotFound,
        Status.isOk, foldl_processOneMigrate, eventsOf,
        (by simpa using ht : s.register.take count = [])]
    · simp [processMigrate, migrateRegisterGetN, h, ht, Status.IsNotFound,
        Status.isOk, foldl_processOneMigrate]

/-- C3: `WaitSetMaster(node, table, partition)` returns the `NotFound`
lookup failure and emits nothing when the partition has no master;
otherwise it first enqueues `SetStuck` and then registers the ConditionCron
entry with reference the current master and candidate `node`, whose
deferred task is `SetMaster(node)`, and returns `OK`. -/
theorem waitSetMaster_spec (pm : String → Int → Option Node) (node : Node)
    (table : String) (partition : Int) (s : ZPMetaServerState) :
    waitSetMaster pm node table partition s =
      match pm table partition with
      | none => (Status.notFound "partition not exist", s)
      | some master =>
        (Status.ok,
         { s with events := s.events ++
            [Event.pendingUpdate
               ⟨ZPMetaUpdateOP.kOpSetStuck, "", table, partition⟩,
             Event.addCronTask ⟨table, partition, master, node⟩
               ⟨ZPMetaUpdateOP.kOpSetMaster, ipPortString node.ip node.port,
                 table, partition⟩] }) := by
  cases h : pm table partition with
  | none => simp [waitSetMaster, getPartitionMaster, h, Status.isOk]
  | some master => simp [waitSetMaster, getPartitionMaster, h, Status.isOk]

/-- C4 counterexample: at epoch 5 with an idle register, `Migrate(5, [])`
does not return `InvalidArgument` (the emptiness of `diffs` is only an
`assert`, not a checked error). -/
theorem migrate_empty_diffs_counterexample :
    (migrate 3 4 5 [] ⟨5, [], ⟨"", 0, none⟩, []⟩).1.IsInvalidArgument
      = false := by decide

/-- C4 amended: a `Migrate(epoch, [])` call with matching epoch and an idle
migrate register initializes the register with the empty list and returns
`Incomplete` after exhausting the `ProcessMigrate` retries; the emptiness
of `diffs` is an assertion (caller precondition), not an `InvalidArgument`
return. -/
theorem migrate_empty_diffs_incomplete (retryNum count : Nat) (e : Int)
    (s : ZPMetaServerState) (hreg : s.register = []) (he : e = s.epoch) :
    migrate retryNum count e [] s =
      (Status.incomplete "no migrate item begin", s) := by
  have hs : ({ s with register := ([] : List RelationCmdUnit) }) = s := by
    rw [← hreg]
  subst he
  have h1 := migrateRetryLoop_empty_register count retryNum
    ({ s with register := [] }) rfl
  simp [migrate, hreg, migrateRegisterInit, Status.isOk]
  rw [h1, hs]

theorem migrate_empty_diffs_incomplete_witness :
    migrate 2 3 5 [] ⟨5, [], ⟨"", 0, none⟩, []⟩ =
      (Status.incomplete "no migrate item begin", ⟨5, [], ⟨"", 0, none⟩, []⟩) :=
  migrate_empty_diffs_incomplete 2 3 5 ⟨5, [], ⟨"", 0, none⟩, []⟩ rfl rfl

/-- C5: `RedirectToLeader` called while no leader connection is held
returns `Corruption("no leader connection")` and attempts no send. -/
theorem redirectToLeader_no_connection (j : LeaderJoint)
    (sendRes recvRes : Status) (h : j.cli = none) :
    redirectToLeader j sendRes recvRes =
      (Status.corruption "no leader connection", false) := by
  simp [redirectToLeader, h]

theorem redirectToLeader_no_connection_witness :
    redirectToLeader ⟨"10.0.0.2", 9421, none⟩ Status.ok Status.ok =
      (Status.corruption "no leader connection", false) :=
  redirectToLeader_no_connection ⟨"10.0.0.2", 9421, none⟩ Status.ok Status.ok rfl

/-- C6 counterexample: with a redirect connection to a previous leader
held and floyd reporting no leader, `RefreshLeader` keeps the connection
handle instead of dropping it. -/
theorem refreshLeader_no_leader_counterexample :
    ((refreshLeader "10.0.0.1" 9221 100 200 none Status.ok Status.ok
        ⟨5, [], ⟨"10.0.0.2", 9421, some ()⟩, []⟩).2).joint.cli = some () := rfl

/-- C6 amended: when `GetLeader` reports no leader, `RefreshLeader`
returns `Incomplete("No leader yet")` and leaves the server state —
including any existing redirect connection — unchanged. -/
theorem refreshLeader_no_leader_spec (localIp : String)
    (localPort shiftFY shiftCmd : Int) (restoreRes connectRes : Status)
    (s : ZPMetaServerState) :
    refreshLeader localIp localPort shiftFY shiftCmd none
        restoreRes connectRes s =
      (Status.incomplete "No leader yet", s) := rfl

/-- C7: two consecutive `RefreshLeader` ticks that both observe this node
itself as leader each call `RestoreNodeAlive`: the self address is never
recorded into the leader joint, so the second tick again sees a "leader
change" rather than recognizing the unchanged leader, contradicting the
entry-only claim. -/
theorem refreshLeader_self_reentry :
    ((refreshLeader "10.0.0.1" 9221 100 200 (some ("10.0.0.1", 9321))
        Status.ok Status.ok
        ((refreshLeader "10.0.0.1" 9221 100 200 (some ("10.0.0.1", 9321))
            Status.ok Status.ok ⟨5, [], ⟨"", 0, none⟩, []⟩).2)).2).events =
      [Event.restoreNodeAlive, Event.restoreNodeAlive] := by decide

theorem collectFollowers_map_some (shiftFY : Int)
    (ldr : Option (String × Int)) (parsed : List (String × Int)) :
    collectFollowers shiftFY ldr (parsed.map some) =
      (Status.ok,
       (parsed.filter (fun p => !isLeaderEntry shiftFY ldr p.1 p.2)).map
         (fun p => (⟨p.1, p.2 - shiftFY⟩ : Node))) := by
  induction parsed with
  | nil => simp [collectFollowers]
  | cons p rest ih =>
    obtain ⟨ip, port⟩ := p
    by_cases h : isLeaderEntry shiftFY ldr ip port = true
    · simp [collectFollowers, h, ih, List.filter_cons]
    · simp [collectFollowers, h, ih, List.filter_cons]

/-- C8: when every meta address from the replicated log parses,
`GetAllMetaNodes` reports each peer with its log-internal port shifted
down by `kMetaPortShiftFY` into base-port space, and the entry matching
the reported leader is excluded from the followers list. -/
theorem getAllMetaNodes_spec (shiftFY : Int)
    (floydLeader : Option (String × Int)) (parsed : List (String × Int)) :
    getAllMetaNodes shiftFY floydLeader (parsed.map some) =
      (Status.ok,
       { leader := (getLeader shiftFY floydLeader).map (fun p => ⟨p.1, p.2⟩),
         followers :=
           (parsed.filter (fun p =>
              !isLeaderEntry shiftFY (getLeader shiftFY floydLeader)
                p.1 p.2)).map
             (fun p => ⟨p.1, p.2 - shiftFY⟩) }) := by
  simp [getAllMetaNodes, collectFollowers_map_some]

/-- C9: for a node appearing in no table's replica sets, the `NotFound`
from `GetTablesForNode` is absorbed: `GetMetaInfoByNode` returns `OK` with
the current epoch as version and an empty table list. -/
theorem getMetaInfoByNode_absorbs_notFound (epoch : Int)
    (tfn : String → List String) (tm : String → Option String)
    (node : String) (h : tfn node = []) :
    getMetaInfoByNode epoch tfn tm node =
      (Status.ok, { version := epoch, info := [] }) := by
  simp [getMetaInfoByNode, getTablesForNode, getMetaInfoLoop, h,
    Status.isOk, Status.IsNotFound]

theorem getMetaInfoByNode_absorbs_notFound_witness :
    getMetaInfoByNode 7 (fun _ => []) (fun _ => none) "10.0.0.5:8001" =
      (Status.ok, { version := 7, info := [] }) :=
  getMetaInfoByNode_absorbs_notFound 7 (fun _ => []) (fun _ => none)
    "10.0.0.5:8001" rfl

theorem updateNodeOffset_foldl (node : Node) (l : List PingOffset)
    (m : OffsetMap) (k : String) :
    (l.foldl (fun acc po => fun q =>
        if q = NodeOffsetKey po.tableName po.partition node.ip node.port
        then some ⟨po.filenum, po.offset⟩ else acc q) m) k =
      match lastHit node k l with
      | some v => some v
      | none => m k := by
  induction l generalizing m with
  | nil => simp [lastHit]
  | cons po rest ih =>
    rw [List.foldl_cons, ih]
    cases hl : lastHit node k rest with
    | some v => simp [lastHit, hl]
    | none =>
      simp only [lastHit, hl]
      by_cases h : k = NodeOffsetKey po.tableName po.partition node.ip node.port
      · rw [if_pos h, if_pos h.symm]
      · rw [if_neg h, if_neg (Ne.symm h)]

/-- C10: `UpdateNodeOffset(ping)` overwrites exactly the map entries keyed
by the `NodeOffsetKey` of an offset listed in the ping — each such key
holds the `(filenum, offset)` of the last listed offset with that key —
and every other entry of the map is unchanged. -/
theorem updateNodeOffset_spec (ping : Ping) (m : OffsetMap) (k : String) :
    updateNodeOffset ping m k =
      match lastHit ping.node k ping.offset with
      | some v => some v
      | none => m k :=
  updateNodeOffset_foldl ping.node ping.offset m k
